import Mathlib

/-!
Verification development for the `tx` command-line tool (src/tx.go), which
builds, signs, outputs and optionally submits Ripple transactions.

The tool itself is a thin pipeline over the `rubblelabs/ripple` library
(`crypto`, `data`, `websockets` packages) and the `codegangsta/cli` flag
library.  Only `tx.go` is in this repository, so definitions below fall in
two groups:

* definitions translated directly from `tx.go` (flag composition, the order
  of operations in `sign`, the `payment` / `trust` / `submit` command
  pipelines, `outputTx`, `submitTx`, `checkErr` semantics), and
* definitions whose doc comment starts with `Modelled from the spec:`,
  standing in for library code that is not part of this repository
  (key derivation, canonical binary serialization, signature primitive,
  flag-value constants, cli flag lookup).

Bytes are modelled as `List Nat`; fixed-width wire integers are a single
list element, variable-length data is length-prefixed, mirroring the
header/value shape of the canonical encoding described in the spec.
-/

/-- A byte string (one `Nat` per serialized symbol). -/
abbrev Bytes := List Nat

/-! ## Key derivation (KeyDeriver)

`tx.go` calls `crypto.NewRippleHashCheck`, `crypto.GenerateRootDeterministicKey`,
`key.GenerateAccountKey`, `key.GenerateAccountId` and `priv.PublicAccountKey`,
all from the ripple `crypto` package, which is not part of this repository. -/

/-- Modelled from the spec: stand-in for the cryptographic hash used by key
derivation and content hashing (the `crypto` package is not under `src/`).
A deterministic, executable digest function. -/
def specHash (bs : Bytes) : Bytes :=
  [bs.foldl (fun a b => a * 257 + (b + 1)) 7]

/-- Modelled from the spec: character codes of a textual input. -/
def strBytes (s : String) : Bytes :=
  s.data.map Char.toNat

/-- Modelled from the spec: `crypto.GenerateRootDeterministicKey` — the root
key is a deterministic function of the seed payload. -/
def rootFromSeed (seedBytes : Bytes) : Bytes :=
  specHash (seedBytes ++ [0])

/-- Modelled from the spec: `parseSeed` (tx.go) — checksum-protected text is
decoded to a seed payload and expanded to the root deterministic key. -/
def parseSeedM (s : String) : Bytes :=
  rootFromSeed (strBytes s)

/-- Modelled from the spec: `key.GenerateAccountKey` — the account private
key at a given account index, derived from the root key. -/
def accountPriv (root : Bytes) (index : Nat) : Bytes :=
  specHash (root ++ [index])

/-- Modelled from the spec: the public key of an account private key. -/
def accountPub (priv : Bytes) : Bytes :=
  2 :: specHash priv

/-- Modelled from the spec: AccountID = hash of the public key. -/
def accountIdOf (pub : Bytes) : Bytes :=
  specHash (160 :: pub)

/-- A derived keypair plus its account identifier. -/
structure KeyTriple where
  privKey : Bytes
  pubKey : Bytes
  accountId : Bytes
deriving DecidableEq

/-- Modelled from the spec: the two supported derivation algorithms — an
elliptic-curve scheme parameterized by the account index, and an alternate
scheme that ignores the account index. -/
inductive Algorithm where
  | ecdsa
  | ed25519
deriving DecidableEq

/-- Modelled from the spec: full key derivation — given seed bytes, an
account index and an algorithm selector, deterministically produce the
private key, public key and AccountID. -/
def deriveKey (seed : Bytes) (index : Nat) : Algorithm → KeyTriple
  | .ecdsa =>
    let priv := accountPriv (rootFromSeed seed) index
    ⟨priv, accountPub priv, accountIdOf (accountPub priv)⟩
  | .ed25519 =>
    let priv := specHash (rootFromSeed seed)
    ⟨priv, accountPub priv, accountIdOf (accountPub priv)⟩

/-! ## Transaction flags

The flag constants live in the ripple `data` package; their values are the
network's fixed flag bits.  The OR-composition below is translated from
`payment` (tx.go lines 137–146) and `trust` (tx.go lines 172–187). -/

/-- Modelled from the spec: `data.TxNoDirectRipple` flag bit. -/
def TxNoDirectRipple : Nat := 0x00010000

/-- Modelled from the spec: `data.TxPartialPayment` flag bit. -/
def TxPartialPayment : Nat := 0x00020000

/-- Modelled from the spec: `data.TxLimitQuality` flag bit. -/
def TxLimitQuality : Nat := 0x00040000

/-- Modelled from the spec: `data.TxSetAuth` flag bit. -/
def TxSetAuth : Nat := 0x00010000

/-- Modelled from the spec: `data.TxSetNoRipple` flag bit. -/
def TxSetNoRipple : Nat := 0x00020000

/-- Modelled from the spec: `data.TxClearNoRipple` flag bit. -/
def TxClearNoRipple : Nat := 0x00040000

/-- Modelled from the spec: `data.TxSetFreeze` flag bit. -/
def TxSetFreeze : Nat := 0x00100000

/-- Modelled from the spec: `data.TxClearFreeze` flag bit. -/
def TxClearFreeze : Nat := 0x00200000

/-- Flag composition in `payment` (tx.go 137–146): start from zero and OR in
the bit of each selected boolean option. -/
def paymentFlags (nodirect part limit : Bool) : Nat :=
  let f0 : Nat := 0
  let f1 := if nodirect then f0 ||| TxNoDirectRipple else f0
  let f2 := if part then f1 ||| TxPartialPayment else f1
  if limit then f2 ||| TxLimitQuality else f2

/-- Flag composition in `trust` (tx.go 172–187): start from zero and OR in
the bit of each selected boolean option. -/
def trustFlags (auth noripple clearNoripple freeze clearFreeze : Bool) : Nat :=
  let f0 : Nat := 0
  let f1 := if auth then f0 ||| TxSetAuth else f0
  let f2 := if noripple then f1 ||| TxSetNoRipple else f1
  let f3 := if clearNoripple then f2 ||| TxClearNoRipple else f2
  let f4 := if freeze then f3 ||| TxSetFreeze else f3
  if clearFreeze then f4 ||| TxClearFreeze else f4

/-! ## Data model (mirrors `data.TxBase`, `data.Payment`, `data.TrustSet`
as used by tx.go) -/

/-- Amounts are polymorphic over native unit counts and issued-currency
triples (value, currency code, issuing account). -/
inductive Amount where
  | native : Nat → Amount
  | issued : Nat → Bytes → Bytes → Amount
deriving DecidableEq

/-- The common transaction fields set by tx.go's `sign` (mirrors
`data.TxBase` as used there). -/
structure TransactionBase where
  account : Bytes
  sequence : Nat
  fee : Nat
  flags : Option Nat
  lastLedgerSequence : Option Nat
  signingPubKey : Option Bytes
  txnSignature : Option Bytes
deriving DecidableEq

/-- Mirrors `data.Payment` as populated by tx.go's `payment`. -/
structure Payment where
  base : TransactionBase
  destination : Bytes
  amount : Amount
  paths : Option (List (List Bytes))
  sendMax : Option Amount
deriving DecidableEq

/-- Mirrors `data.TrustSet` as populated by tx.go's `trust`. -/
structure TrustSet where
  base : TransactionBase
  limitAmount : Amount
  qualityIn : Option Nat
  qualityOut : Option Nat
deriving DecidableEq

/-- The closed union of transaction types built by this tool. -/
inductive Tx where
  | payment : Payment → Tx
  | trustSet : TrustSet → Tx
deriving DecidableEq

/-- `tx.GetBase()` — the common field record of either variant. -/
def Tx.getBase : Tx → TransactionBase
  | .payment p => p.base
  | .trustSet t => t.base

/-- Replace the common field record of a transaction. -/
def Tx.setBase : Tx → TransactionBase → Tx
  | .payment p, b => .payment { p with base := b }
  | .trustSet t, b => .trustSet { t with base := b }

/-- Set only the signature field of a transaction. -/
def Tx.setSignature (tx : Tx) (sig : Bytes) : Tx :=
  tx.setBase { tx.getBase with txnSignature := some sig }

/-- Well-formedness for re-encoding: a payment never carries an empty path
set (tx.go's `parsePaths` always produces at least one path). -/
def Tx.wellFormed : Tx → Bool
  | .payment p => p.paths ≠ some []
  | .trustSet _ => true

/-! ## Canonical binary encoding (Encoder)

`data.Raw` / `data.ReadTransaction` live in the ripple `data` package.
The spec mandates: fields in increasing (type-code, field-code) order, each
a header followed by its value; fixed-width integers, length-prefixed
variable-length data, and array-start/array-end markers around routing-path
elements.  The definitions below reproduce that shape over `Bytes`. -/

/-- Modelled from the spec: length-prefixed (variable-length) encoding. -/
def encVL (bs : Bytes) : Bytes := bs.length :: bs

/-- Modelled from the spec: amount encoding — a tag symbol then the value,
with length-prefixed currency/issuer for issued amounts. -/
def encAmount : Amount → Bytes
  | .native n => [0, n]
  | .issued v c i => 1 :: v :: (encVL c ++ encVL i)

/-- Field header: TransactionType (type 1, field 2). -/
def hTransactionType : Nat := 0x12
/-- Field header: Flags (type 2, field 2). -/
def hFlags : Nat := 0x22
/-- Field header: Sequence (type 2, field 4). -/
def hSequence : Nat := 0x24
/-- Field header: QualityIn (type 2, field 20). -/
def hQualityIn : Nat := 0x2014
/-- Field header: QualityOut (type 2, field 21). -/
def hQualityOut : Nat := 0x2015
/-- Field header: LastLedgerSequence (type 2, field 27). -/
def hLastLedgerSequence : Nat := 0x201B
/-- Field header: Amount (type 6, field 1). -/
def hAmount : Nat := 0x61
/-- Field header: LimitAmount (type 6, field 3). -/
def hLimitAmount : Nat := 0x63
/-- Field header: Fee (type 6, field 8). -/
def hFee : Nat := 0x68
/-- Field header: SendMax (type 6, field 9). -/
def hSendMax : Nat := 0x69
/-- Field header: SigningPubKey (type 7, field 3). -/
def hSigningPubKey : Nat := 0x73
/-- Field header: TxnSignature (type 7, field 4). -/
def hTxnSignature : Nat := 0x74
/-- Field header: Account (type 8, field 1). -/
def hAccount : Nat := 0x81
/-- Field header: Destination (type 8, field 3). -/
def hDestination : Nat := 0x83
/-- Field header: Paths (type 18, field 1). -/
def hPaths : Nat := 0x112

/-- Optional fixed-width field: header and value when present, nothing
otherwise. -/
def encOptNat (h : Nat) : Option Nat → Bytes
  | none => []
  | some n => [h, n]

/-- Optional variable-length field: header and length-prefixed value when
present. -/
def encOptVL (h : Nat) : Option Bytes → Bytes
  | none => []
  | some bs => h :: encVL bs

/-- Optional amount field: header and amount encoding when present. -/
def encOptAmount (h : Nat) : Option Amount → Bytes
  | none => []
  | some a => h :: encAmount a

/-- One routing-path step: element marker then the length-prefixed account. -/
def encPathStep (a : Bytes) : Bytes := 1 :: encVL a

/-- One routing path: the concatenation of its steps. -/
def encPath (p : List Bytes) : Bytes := (p.map encPathStep).flatten

/-- A path set: paths separated by the path-separator marker (255) and
closed by the end-of-array marker (0). -/
def encPathList : List (List Bytes) → Bytes
  | [] => [0]
  | [p] => encPath p ++ [0]
  | p :: ps => encPath p ++ 255 :: encPathList ps

/-- Optional Paths field. -/
def encOptPaths : Option (List (List Bytes)) → Bytes
  | none => []
  | some ps => hPaths :: encPathList ps

/-- Canonical body of a Payment: fields in increasing (type-code,
field-code) order. -/
def encPaymentBody (p : Payment) : Bytes :=
  encOptNat hFlags p.base.flags ++
  (hSequence :: p.base.sequence ::
  (encOptNat hLastLedgerSequence p.base.lastLedgerSequence ++
  (hAmount :: (encAmount p.amount ++
  (hFee :: p.base.fee ::
  (encOptAmount hSendMax p.sendMax ++
  (encOptVL hSigningPubKey p.base.signingPubKey ++
  (encOptVL hTxnSignature p.base.txnSignature ++
  (hAccount :: (encVL p.base.account ++
  (hDestination :: (encVL p.destination ++
  encOptPaths p.paths))))))))))))

/-- Canonical body of a TrustSet: fields in increasing (type-code,
field-code) order. -/
def encTrustBody (t : TrustSet) : Bytes :=
  encOptNat hFlags t.base.flags ++
  (hSequence :: t.base.sequence ::
  (encOptNat hQualityIn t.qualityIn ++
  (encOptNat hQualityOut t.qualityOut ++
  (encOptNat hLastLedgerSequence t.base.lastLedgerSequence ++
  (hLimitAmount :: (encAmount t.limitAmount ++
  (hFee :: t.base.fee ::
  (encOptVL hSigningPubKey t.base.signingPubKey ++
  (encOptVL hTxnSignature t.base.txnSignature ++
  (hAccount :: encVL t.base.account))))))))))

/-- Modelled from the spec: the canonical binary serialization of a
transaction (`data.Raw`'s byte output): the TransactionType field followed
by the remaining fields in canonical order. -/
def encodeTx : Tx → Bytes
  | .payment p => hTransactionType :: 0 :: encPaymentBody p
  | .trustSet t => hTransactionType :: 20 :: encTrustBody t

/-- Modelled from the spec: the content-identifying hash of the canonical
bytes (`data.Raw`'s hash output) — a hash over a tag and the raw bytes. -/
def txHash (raw : Bytes) : Bytes := specHash (0x54584E00 :: raw)

/-! ## Quality scaling (TransactionBuilder, trust command) -/

/-- Quality ratio scaling from `trust` (tx.go 166–170):
`uint32(ratio * 1000000000)` — the ratio is scaled by `10^9` and truncated
to a 32-bit wire integer.  The cli float value is modelled as an exact
rational; binary64 arithmetic is exact at every input the claims touch. -/
def qualityWire (q : ℚ) : Nat :=
  (⌊q * 1000000000⌋).toNat % 4294967296

/-! ## Configuration (cli flags)

`tx.go` reads global flags (seed, fee, sequence, lastledger, submit,
binary, json) and per-command flags.  The two external collaborators whose
outcome the pipeline merely routes — the signing primitive and the network
submission — are modelled as stub outcomes carried in the configuration. -/

/-- Global cli flags plus the stubbed collaborator outcomes. -/
structure GlobalConfig where
  /-- `--seed` : the textual seed, `none` when not supplied. -/
  seed : Option String
  /-- `--fee` : the caller-specified fee, `none` when not supplied
  (the cli flag carries default value 10). -/
  feeSpecified : Option Nat
  /-- `--sequence` : the transaction sequence (cli default 0). -/
  sequence : Nat
  /-- `--lastledger` (cli default 0). -/
  lastledger : Nat
  /-- `--submit`. -/
  submitFlag : Bool
  /-- `--binary`. -/
  binary : Bool
  /-- `--json`. -/
  json : Bool
  /-- Stub: whether the external signing primitive reports an error. -/
  signingFault : Bool
  /-- Stub: the submission collaborator's outcome — either an engine
  result (code, message) or a transport error message. -/
  submitOutcome : (String × String) ⊕ String

/-- Modelled from the spec: `c.GlobalInt("fee")` — the cli integer flag's
current value, its declared default 10 when the caller did not set it. -/
def feeValue (g : GlobalConfig) : Nat :=
  g.feeSpecified.getD 10

/-- Modelled from the spec: `c.GlobalString("fee")` — the cli library
renders the flag's current value with the flag.Value `String()` method,
so an integer flag yields its decimal rendering. -/
def feeString (g : GlobalConfig) : String :=
  Nat.repr (feeValue g)

/-- Per-command flags of `payment`. -/
structure PaymentConfig where
  g : GlobalConfig
  dest : String
  amount : String
  paths : String
  sendmax : String
  nodirect : Bool
  part : Bool
  limit : Bool

/-- Per-command flags of `trust`.  The quality flags are cli float values
(default 1.0), modelled as exact rationals. -/
structure TrustConfig where
  g : GlobalConfig
  amount : String
  qualityOut : ℚ
  qualityIn : ℚ
  auth : Bool
  noripple : Bool
  clearNoripple : Bool
  freeze : Bool
  clearFreeze : Bool

/-- Modelled from the spec: `parseAccount` (tx.go) — address text decoded
to AccountID bytes; abstracted as character-code extraction. -/
def parseAccount (s : String) : Bytes := strBytes s

/-- Decimal digit accumulation for amount values. -/
def digitsVal (s : String) : Nat :=
  s.data.foldl (fun a c => a * 10 + (c.toNat - 48)) 0

/-- Modelled from the spec: `parseAmount` (tx.go) / `data.NewAmount` — a
plain value parses as a native amount, `value/currency/issuer` as an
issued amount. -/
def parseAmount (s : String) : Amount :=
  match s.splitOn "/" with
  | [v, c, i] => Amount.issued (digitsVal v) (strBytes c) (strBytes i)
  | v :: _ => Amount.native (digitsVal v)
  | [] => Amount.native 0

/-- Modelled from the spec: `parsePaths` (tx.go) — the comma-separated path
list, each segment parsed as one routing path (never empty: splitting a
string always yields at least one segment). -/
def parsePathsM (s : String) : List (List Bytes) :=
  (s.splitOn ",").map (fun seg => [strBytes seg])

/-! ## Signer (`sign`, tx.go 53–79) -/

/-- The 4-byte single-signer signing context marker (`"STX\0"`). -/
def signingMarker : Bytes := [0x53, 0x54, 0x58, 0x00]

/-- Modelled from the spec: the signature primitive — a deterministic
function of the private key and the payload. -/
def specSign (priv payload : Bytes) : Bytes :=
  specHash (priv ++ payload)

/-- The field assignments performed by `sign` (tx.go 53–77) before
`data.Sign` runs: sequence from the global flag, a fresh public-key field
filled from the derived key, `LastLedgerSequence` only when the flag is
positive, a zero flag word when none was set, the account from the derived
AccountID, the fee from the cli flag when its string form is non-empty,
and the empty placeholder signature. -/
def preSignBase (g : GlobalConfig) (root : Bytes) (index : Nat)
    (base : TransactionBase) : TransactionBase :=
  let priv := accountPriv root index
  { base with
    sequence := g.sequence
    signingPubKey := some (accountPub priv)
    lastLedgerSequence :=
      if g.lastledger > 0 then some g.lastledger else base.lastLedgerSequence
    flags := some (base.flags.getD 0)
    account := accountIdOf (accountPub priv)
    fee := if feeString g ≠ "" then feeValue g else base.fee
    txnSignature := some [] }

/-- The transaction as it stands when the signing payload is computed. -/
def preSignTx (g : GlobalConfig) (root : Bytes) (index : Nat) (tx : Tx) : Tx :=
  tx.setBase (preSignBase g root index tx.getBase)

/-- Modelled from the spec: the canonical signing payload — the 4-byte
signing context marker followed by the serialization of the currently-set
fields. -/
def signingPayload (tx : Tx) : Bytes :=
  signingMarker ++ encodeTx tx

/-- `sign` (tx.go 53–79): populate the base fields, compute the signing
payload over the placeholder record, sign it, and replace the placeholder
with the signature. -/
def signedTxF (g : GlobalConfig) (root : Bytes) (index : Nat) (tx : Tx) : Tx :=
  let pre := preSignTx g root index tx
  pre.setSignature (specSign (accountPriv root index) (signingPayload pre))

/-- Pipeline errors (spec §7 kinds, as reachable from tx.go). -/
inductive Err where
  | missingRequiredField
  | signingError
  | encodingError
  | transportError (msg : String)
deriving DecidableEq

/-- `sign` as a fallible stage: `checkErr` aborts the invocation when the
external signing primitive reports an error, otherwise the signed record
is produced. -/
def signRun (g : GlobalConfig) (root : Bytes) (index : Nat) (tx : Tx) :
    Except Err Tx :=
  if g.signingFault then .error .signingError
  else .ok (signedTxF g root index tx)

/-! ## Output routing (`outputTx`, `submitTx`, tx.go 81–112) -/

/-- What the invocation emits. -/
inductive Output where
  | binaryOut (raw : Bytes)
  | hashHex (hash raw : Bytes)
  | jsonOut (tx : Tx)
  | submitted (code msg : String)
deriving DecidableEq

/-- The local outputs of `outputTx` (tx.go 90–107): raw binary or
hash+hex unless `--json`, and the JSON document when `--json` or not
`--binary`. -/
def localOutputs (g : GlobalConfig) (tx : Tx) : List Output :=
  (if ¬ g.json then
    (if g.binary then [Output.binaryOut (encodeTx tx)]
     else [Output.hashHex (txHash (encodeTx tx)) (encodeTx tx)])
   else [])
  ++ (if g.json ∨ ¬ g.binary then [Output.jsonOut tx] else [])

/-- `submitTx` (tx.go 81–88): a delivered engine result is printed
verbatim as `code: message` and the invocation ends successfully; a
transport error aborts the invocation carrying the error's message. -/
def submitTxRun : (String × String) ⊕ String → List Output × Option Err
  | .inl (code, msg) => ([Output.submitted code msg], none)
  | .inr e => ([], some (Err.transportError e))

/-- `outputTx` (tx.go 90–112): emit the local outputs, then hand off to
`submitTx` when `--submit` is set. -/
def outputTxRun (g : GlobalConfig) (tx : Tx) : List Output × Option Err :=
  if g.submitFlag then
    (localOutputs g tx ++ (submitTxRun g.submitOutcome).1,
     (submitTxRun g.submitOutcome).2)
  else (localOutputs g tx, none)

/-! ## Command pipelines (`payment`, `trust`, `submit`) -/

/-- The root key available to a command (`key` global in tx.go, set by
`common` from the `--seed` flag). -/
def rootKeyOf (g : GlobalConfig) : Bytes :=
  parseSeedM (g.seed.getD "")

/-- The Payment record built by `payment` (tx.go 120–146): destination and
amount parsed from the required flags, optional paths and send-max, and
the OR-composed flag word. -/
def buildPayment (cfg : PaymentConfig) : Payment :=
  { base :=
      { account := List.replicate 20 0
        sequence := 0
        fee := 0
        flags := some (paymentFlags cfg.nodirect cfg.part cfg.limit)
        lastLedgerSequence := none
        signingPubKey := none
        txnSignature := none }
    destination := parseAccount cfg.dest
    amount := parseAmount cfg.amount
    paths := if cfg.paths ≠ "" then some (parsePathsM cfg.paths) else none
    sendMax := if cfg.sendmax ≠ "" then some (parseAmount cfg.sendmax) else none }

/-- The TrustSet record built by `trust` (tx.go 158–187): the limit amount
from the required flag, both quality ratios scaled to wire form, and the
OR-composed flag word. -/
def buildTrust (cfg : TrustConfig) : TrustSet :=
  { base :=
      { account := List.replicate 20 0
        sequence := 0
        fee := 0
        flags := some (trustFlags cfg.auth cfg.noripple cfg.clearNoripple
          cfg.freeze cfg.clearFreeze)
        lastLedgerSequence := none
        signingPubKey := none
        txnSignature := none }
    limitAmount := parseAmount cfg.amount
    qualityIn := some (qualityWire cfg.qualityIn)
    qualityOut := some (qualityWire cfg.qualityOut) }

/-- The signed transaction a successful `payment` invocation produces —
note the account-key index passed to `sign` is the literal 0
(tx.go line 148). -/
def paymentSigned (cfg : PaymentConfig) : Tx :=
  signedTxF cfg.g (rootKeyOf cfg.g) 0 (Tx.payment (buildPayment cfg))

/-- The signed transaction a successful `trust` invocation produces —
note the account-key index passed to `sign` is the literal 0
(tx.go line 189). -/
def trustSigned (cfg : TrustConfig) : Tx :=
  signedTxF cfg.g (rootKeyOf cfg.g) 0 (Tx.trustSet (buildTrust cfg))

/-- `payment` (tx.go 114–150): reject immediately when destination, amount
or seed is missing; otherwise build, sign (index 0) and route output.
Any stage failure aborts with that stage's error and nothing emitted. -/
def paymentRun (cfg : PaymentConfig) : List Output × Option Err :=
  if cfg.dest = "" ∨ cfg.amount = "" ∨ cfg.g.seed = none then
    ([], some Err.missingRequiredField)
  else
    match signRun cfg.g (rootKeyOf cfg.g) 0 (Tx.payment (buildPayment cfg)) with
    | .error e => ([], some e)
    | .ok stx => outputTxRun cfg.g stx

/-- `trust` (tx.go 152–191): reject immediately when amount or seed is
missing; otherwise build, sign (index 0) and route output. -/
def trustRun (cfg : TrustConfig) : List Output × Option Err :=
  if cfg.amount = "" ∨ cfg.g.seed = none then
    ([], some Err.missingRequiredField)
  else
    match signRun cfg.g (rootKeyOf cfg.g) 0 (Tx.trustSet (buildTrust cfg)) with
    | .error e => ([], some e)
    | .ok stx => outputTxRun cfg.g stx

/-! ## Decoding (`data.ReadTransaction`, used by the `submit` command)

Modelled from the spec: the alternate entry point decodes a pre-encoded
transaction from the input stream; decoding reads the fields of the
canonical encoding sequentially, recognising optional fields by their
headers.  The path-set decoder carries explicit fuel (the input length
suffices) for termination. -/

/-- Decode a length-prefixed value. -/
def decVL : Bytes → Option (Bytes × Bytes)
  | [] => none
  | n :: rest =>
    if n ≤ rest.length then some (rest.take n, rest.drop n) else none

/-- Decode a required fixed-width field with the given header. -/
def decNatF (h : Nat) : Bytes → Option (Nat × Bytes)
  | x :: v :: rest => if x = h then some (v, rest) else none
  | _ => none

/-- Decode an optional fixed-width field: absent when the stream does not
start with the header. -/
def decOptNat (h : Nat) : Bytes → Option (Option Nat × Bytes)
  | [] => some (none, [])
  | x :: rest =>
    if x = h then
      match rest with
      | v :: rest' => some (some v, rest')
      | [] => none
    else some (none, x :: rest)

/-- Decode a required variable-length field with the given header. -/
def decVLF (h : Nat) : Bytes → Option (Bytes × Bytes)
  | x :: rest => if x = h then decVL rest else none
  | [] => none

/-- Decode an optional variable-length field. -/
def decOptVL (h : Nat) : Bytes → Option (Option Bytes × Bytes)
  | x :: rest =>
    if x = h then (decVL rest).map (fun pr => (some pr.1, pr.2))
    else some (none, x :: rest)
  | [] => some (none, [])

/-- Decode an amount value. -/
def decAmount : Bytes → Option (Amount × Bytes)
  | t :: v :: rest =>
    if t = 0 then some (.native v, rest)
    else if t = 1 then
      (decVL rest).bind fun cr =>
        (decVL cr.2).map fun ir => (.issued v cr.1 ir.1, ir.2)
    else none
  | _ => none

/-- Decode a required amount field with the given header. -/
def decAmountF (h : Nat) : Bytes → Option (Amount × Bytes)
  | x :: rest => if x = h then decAmount rest else none
  | [] => none

/-- Decode an optional amount field. -/
def decOptAmount (h : Nat) : Bytes → Option (Option Amount × Bytes)
  | x :: rest =>
    if x = h then (decAmount rest).map (fun pr => (some pr.1, pr.2))
    else some (none, x :: rest)
  | [] => some (none, [])

/-- Decode the steps of one routing path (marker 1 before each element). -/
def decElems : Nat → Bytes → Option (List Bytes × Bytes)
  | fuel + 1, x :: rest =>
    if x = 1 then
      (decVL rest).bind fun ar =>
        (decElems fuel ar.2).map fun pr => (ar.1 :: pr.1, pr.2)
    else some ([], x :: rest)
  | _, bs => some ([], bs)

/-- Decode a path set: one or more paths separated by marker 255, closed
by marker 0. -/
def decPathList : Nat → Bytes → Option (List (List Bytes) × Bytes)
  | 0, _ => none
  | fuel + 1, bs =>
    (decElems (fuel + 1) bs).bind fun pr =>
      match pr.2 with
      | x :: rest =>
        if x = 0 then some ([pr.1], rest)
        else if x = 255 then
          (decPathList fuel rest).map fun qr => (pr.1 :: qr.1, qr.2)
        else none
      | [] => none

/-- Decode the optional Paths field. -/
def decOptPaths (fuel : Nat) : Bytes → Option (Option (List (List Bytes)) × Bytes)
  | x :: rest =>
    if x = hPaths then (decPathList fuel rest).map (fun pr => (some pr.1, pr.2))
    else some (none, x :: rest)
  | [] => some (none, [])

/-- Decode the body of a Payment (fields in canonical order). -/
def decPayment (fuel : Nat) (bs : Bytes) : Option (Payment × Bytes) :=
  (decOptNat hFlags bs).bind fun s1 =>
  (decNatF hSequence s1.2).bind fun s2 =>
  (decOptNat hLastLedgerSequence s2.2).bind fun s3 =>
  (decAmountF hAmount s3.2).bind fun s4 =>
  (decNatF hFee s4.2).bind fun s5 =>
  (decOptAmount hSendMax s5.2).bind fun s6 =>
  (decOptVL hSigningPubKey s6.2).bind fun s7 =>
  (decOptVL hTxnSignature s7.2).bind fun s8 =>
  (decVLF hAccount s8.2).bind fun s9 =>
  (decVLF hDestination s9.2).bind fun s10 =>
  (decOptPaths fuel s10.2).bind fun s11 =>
  some ({ base :=
            { account := s9.1
              sequence := s2.1
              fee := s5.1
              flags := s1.1
              lastLedgerSequence := s3.1
              signingPubKey := s7.1
              txnSignature := s8.1 }
          destination := s10.1
          amount := s4.1
          paths := s11.1
          sendMax := s6.1 }, s11.2)

/-- Decode the body of a TrustSet (fields in canonical order). -/
def decTrust (bs : Bytes) : Option (TrustSet × Bytes) :=
  (decOptNat hFlags bs).bind fun s1 =>
  (decNatF hSequence s1.2).bind fun s2 =>
  (decOptNat hQualityIn s2.2).bind fun s3 =>
  (decOptNat hQualityOut s3.2).bind fun s4 =>
  (decOptNat hLastLedgerSequence s4.2).bind fun s5 =>
  (decAmountF hLimitAmount s5.2).bind fun s6 =>
  (decNatF hFee s6.2).bind fun s7 =>
  (decOptVL hSigningPubKey s7.2).bind fun s8 =>
  (decOptVL hTxnSignature s8.2).bind fun s9 =>
  (decVLF hAccount s9.2).bind fun s10 =>
  some ({ base :=
            { account := s10.1
              sequence := s2.1
              fee := s7.1
              flags := s1.1
              lastLedgerSequence := s5.1
              signingPubKey := s8.1
              txnSignature := s9.1 }
          limitAmount := s6.1
          qualityIn := s3.1
          qualityOut := s4.1 }, s10.2)

/-- Modelled from the spec: `data.ReadTransaction` — read the
TransactionType field, then dispatch to the per-type field schema. -/
def decodeTx (bs : Bytes) : Option Tx :=
  match bs with
  | x :: t :: rest =>
    if x = hTransactionType then
      if t = 0 then (decPayment bs.length rest).map (fun pr => Tx.payment pr.1)
      else if t = 20 then (decTrust rest).map (fun pr => Tx.trustSet pr.1)
      else none
    else none
  | _ => none

/-- `submit` (tx.go 193–201): decode a pre-encoded transaction from the
input stream and route it to `outputTx`, bypassing build and sign. -/
def submitCmd (g : GlobalConfig) (stdin : Bytes) : List Output × Option Err :=
  match decodeTx stdin with
  | none => ([], some Err.encodingError)
  | some tx => outputTxRun g tx

/-! ## Round-trip lemmas: decoding an encoded transaction recovers it -/

/-- Decoding a length-prefixed value recovers it and the remainder. -/
theorem decVL_enc (v r : Bytes) : decVL (encVL v ++ r) = some (v, r) := by
  simp [decVL, encVL, List.take_append, List.drop_append]

/-- Decoding a required fixed-width field recovers it. -/
theorem decNatF_enc (h v : Nat) (r : Bytes) :
    decNatF h (h :: v :: r) = some (v, r) := by
  simp [decNatF]

/-- Decoding a required variable-length field recovers it. -/
theorem decVLF_enc (h : Nat) (v r : Bytes) :
    decVLF h (h :: (encVL v ++ r)) = some (v, r) := by
  simp [decVLF, decVL_enc]

/-- Decoding an optional fixed-width field recovers it, provided an absent
field is not shadowed by the next field's header. -/
theorem decOptNat_enc (h : Nat) (o : Option Nat) (r : Bytes)
    (hr : r.head? ≠ some h) :
    decOptNat h (encOptNat h o ++ r) = some (o, r) := by
  cases o with
  | some n => simp [decOptNat, encOptNat]
  | none =>
    simp only [encOptNat, List.nil_append]
    match r, hr with
    | [], _ => rfl
    | x :: rest, hr =>
      have hx : x ≠ h := by simpa using hr
      simp [decOptNat, hx]

/-- Decoding an optional variable-length field recovers it. -/
theorem decOptVL_enc (h : Nat) (o : Option Bytes) (r : Bytes)
    (hr : r.head? ≠ some h) :
    decOptVL h (encOptVL h o ++ r) = some (o, r) := by
  cases o with
  | some v =>
    simp [decOptVL, encOptVL, decVL_enc]
  | none =>
    simp only [encOptVL, List.nil_append]
    match r, hr with
    | [], _ => rfl
    | x :: rest, hr =>
      have hx : x ≠ h := by simpa using hr
      simp [decOptVL, hx]

/-- Decoding an amount recovers it. -/
theorem decAmount_enc (a : Amount) (r : Bytes) :
    decAmount (encAmount a ++ r) = some (a, r) := by
  cases a with
  | native n => simp [decAmount, encAmount]
  | issued v c i =>
    simp [decAmount, encAmount, decVL_enc]

/-- Decoding a required amount field recovers it. -/
theorem decAmountF_enc (h : Nat) (a : Amount) (r : Bytes) :
    decAmountF h (h :: (encAmount a ++ r)) = some (a, r) := by
  simp [decAmountF, decAmount_enc]

/-- Decoding an optional amount field recovers it. -/
theorem decOptAmount_enc (h : Nat) (o : Option Amount) (r : Bytes)
    (hr : r.head? ≠ some h) :
    decOptAmount h (encOptAmount h o ++ r) = some (o, r) := by
  cases o with
  | some a => simp [decOptAmount, encOptAmount, decAmount_enc]
  | none =>
    simp only [encOptAmount, List.nil_append]
    match r, hr with
    | [], _ => rfl
    | x :: rest, hr =>
      have hx : x ≠ h := by simpa using hr
      simp [decOptAmount, hx]

/-- Fuel bound for path-set decoding: total element count plus path count. -/
def pathsBound (ps : List (List Bytes)) : Nat :=
  (ps.map List.length).sum + ps.length

/-- A path's element count is at most its encoding's length. -/
theorem length_le_encPath (p : List Bytes) : p.length ≤ (encPath p).length := by
  induction p with
  | nil => simp [encPath]
  | cons a p ih =>
    simp only [encPath, List.map_cons, List.flatten_cons, List.length_append,
      List.length_cons, encPathStep, encVL] at *
    omega

/-- The fuel bound is at most the encoded path set's length. -/
theorem pathsBound_le_enc (ps : List (List Bytes)) :
    pathsBound ps ≤ (encPathList ps).length := by
  induction ps with
  | nil => simp [pathsBound, encPathList]
  | cons p ps ih =>
    cases ps with
    | nil =>
      have := length_le_encPath p
      simp only [pathsBound, encPathList, List.map_cons, List.map_nil,
        List.sum_cons, List.sum_nil, List.length_cons, List.length_nil,
        List.length_append] at *
      omega
    | cons q qs =>
      have := length_le_encPath p
      simp only [pathsBound, encPathList, List.map_cons, List.sum_cons,
        List.length_cons, List.length_append] at *
      omega

/-- Decoding the encoded steps of one path recovers them, given enough fuel
and a remainder that does not start with the element marker. -/
theorem decElems_enc (p : List Bytes) (fuel : Nat) (r : Bytes)
    (hf : p.length ≤ fuel) (hr : r.head? ≠ some 1) :
    decElems fuel (encPath p ++ r) = some (p, r) := by
  induction p generalizing fuel with
  | nil =>
    simp only [encPath, List.map_nil, List.flatten_nil, List.nil_append]
    cases fuel with
    | zero => rfl
    | succ fuel =>
      match r, hr with
      | [], _ => rfl
      | x :: rest, hr =>
        have hx : x ≠ 1 := by simpa using hr
        simp [decElems, hx]
  | cons a p ih =>
    cases fuel with
    | zero => simp at hf
    | succ fuel =>
      have hf' : p.length ≤ fuel := by simpa using hf
      simp only [encPath, List.map_cons, List.flatten_cons, encPathStep,
        List.cons_append, List.append_assoc]
      have hp : (List.map encPathStep p).flatten ++ r = encPath p ++ r := by
        simp [encPath]
      simp only [decElems, if_pos rfl, decVL_enc, Option.some_bind, hp,
        ih fuel hf', Option.map_some]
      simp

/-- Decoding an encoded non-empty path set recovers it, given enough fuel. -/
theorem decPathList_enc (ps : List (List Bytes)) (fuel : Nat) (r : Bytes)
    (hne : ps ≠ []) (hf : pathsBound ps ≤ fuel) :
    decPathList fuel (encPathList ps ++ r) = some (ps, r) := by
  induction ps generalizing fuel r with
  | nil => exact absurd rfl hne
  | cons p ps ih =>
    cases fuel with
    | zero =>
      exfalso
      simp [pathsBound] at hf
    | succ fuel =>
      cases ps with
      | nil =>
        have hp : p.length ≤ fuel + 1 := by
          simp only [pathsBound, List.map_cons, List.map_nil, List.sum_cons,
            List.sum_nil, List.length_cons, List.length_nil] at hf
          omega
        simp only [encPathList, List.append_assoc, List.cons_append,
          List.nil_append]
        simp only [decPathList,
          decElems_enc p (fuel + 1) (0 :: r) hp (by simp), Option.some_bind]
        simp
      | cons q qs =>
        have hp : p.length ≤ fuel + 1 := by
          simp only [pathsBound, List.map_cons, List.sum_cons,
            List.length_cons] at hf
          omega
        have hq : pathsBound (q :: qs) ≤ fuel := by
          simp only [pathsBound, List.map_cons, List.sum_cons,
            List.length_cons] at *
          omega
        simp only [encPathList, List.append_assoc, List.cons_append]
        simp only [decPathList,
          decElems_enc p (fuel + 1) (255 :: (encPathList (q :: qs) ++ r)) hp
            (by simp), Option.some_bind]
        simp
        exact ih fuel r (by simp) hq

/-- Decoding an optional Paths field recovers it. -/
theorem decOptPaths_enc (fuel : Nat) (o : Option (List (List Bytes)))
    (r : Bytes) (hr : r.head? ≠ some hPaths)
    (ho : ∀ ps, o = some ps → ps ≠ [] ∧ pathsBound ps ≤ fuel) :
    decOptPaths fuel (encOptPaths o ++ r) = some (o, r) := by
  cases o with
  | some ps =>
    obtain ⟨hne, hf⟩ := ho ps rfl
    simp only [encOptPaths, List.cons_append]
    simp [decOptPaths, decPathList_enc ps fuel r hne hf]
  | none =>
    simp only [encOptPaths, List.nil_append]
    match r, hr with
    | [], _ => rfl
    | x :: rest, hr =>
      have hx : x ≠ hPaths := by simpa using hr
      simp [decOptPaths, hx]

/-- A stream starting with a different symbol does not start with `h`. -/
theorem headNe_cons {x h : Nat} (r : Bytes) (hx : x ≠ h) :
    (x :: r).head? ≠ some h := by
  simp [hx]

/-- Prepending an optional fixed-width field of a different header keeps a
stream from starting with `h`. -/
theorem headNe_encOptNat {h' h : Nat} (o : Option Nat) {r : Bytes}
    (hne : h' ≠ h) (hr : r.head? ≠ some h) :
    (encOptNat h' o ++ r).head? ≠ some h := by
  cases o with
  | none => simpa [encOptNat] using hr
  | some n => simp [encOptNat, hne]

/-- Prepending an optional variable-length field of a different header keeps
a stream from starting with `h`. -/
theorem headNe_encOptVL {h' h : Nat} (o : Option Bytes) {r : Bytes}
    (hne : h' ≠ h) (hr : r.head? ≠ some h) :
    (encOptVL h' o ++ r).head? ≠ some h := by
  cases o with
  | none => simpa [encOptVL] using hr
  | some v => simp [encOptVL, hne]

/-- Prepending an optional amount field of a different header keeps a
stream from starting with `h`. -/
theorem headNe_encOptAmount {h' h : Nat} (o : Option Amount) {r : Bytes}
    (hne : h' ≠ h) (hr : r.head? ≠ some h) :
    (encOptAmount h' o ++ r).head? ≠ some h := by
  cases o with
  | none => simpa [encOptAmount] using hr
  | some a => simp [encOptAmount, hne]

/-- Decoding an encoded non-empty path set at the end of the stream. -/
theorem decPathList_enc_nil (ps : List (List Bytes)) (fuel : Nat)
    (hne : ps ≠ []) (hf : pathsBound ps ≤ fuel) :
    decPathList fuel (encPathList ps) = some (ps, []) := by
  simpa using decPathList_enc ps fuel [] hne hf

/-- Decoding a length-prefixed value at the end of the stream. -/
theorem decVL_enc_nil (v : Bytes) : decVL (encVL v) = some (v, []) := by
  simpa using decVL_enc v []

/-- Decoding a required variable-length field at the end of the stream. -/
theorem decVLF_enc_nil (h : Nat) (v : Bytes) :
    decVLF h (h :: encVL v) = some (v, []) := by
  simp [decVLF, decVL_enc_nil]

/-- The path-set decoder on an empty stream. -/
theorem decOptPaths_nil (fuel : Nat) : decOptPaths fuel [] = some (none, []) := rfl

/-- A stream positioned at the Sequence field does not start with the Flags
header. -/
theorem headNe_seq_flags (s : Nat) (r : Bytes) :
    ((hSequence : Nat) :: s :: r).head? ≠ some hFlags := by
  simp [hSequence, hFlags]

/-- A stream positioned at the QualityOut field (or later) does not start
with the QualityIn header. -/
theorem headNe_trust_qin (o2 o3 : Option Nat) (r : Bytes) :
    (encOptNat hQualityOut o2 ++ (encOptNat hLastLedgerSequence o3 ++
      ((hLimitAmount : Nat) :: r))).head? ≠ some hQualityIn := by
  cases o2 <;> cases o3 <;>
    simp [encOptNat, hQualityOut, hLastLedgerSequence, hLimitAmount, hQualityIn]

/-- A stream positioned at the LastLedgerSequence field (or later) does not
start with the QualityOut header. -/
theorem headNe_trust_qout (o3 : Option Nat) (r : Bytes) :
    (encOptNat hLastLedgerSequence o3 ++ ((hLimitAmount : Nat) :: r)).head? ≠
      some hQualityOut := by
  cases o3 <;> simp [encOptNat, hLastLedgerSequence, hLimitAmount, hQualityOut]

/-- A stream positioned at the LimitAmount field does not start with the
LastLedgerSequence header. -/
theorem headNe_lim_lls (r : Bytes) :
    ((hLimitAmount : Nat) :: r).head? ≠ some hLastLedgerSequence := by
  simp [hLimitAmount, hLastLedgerSequence]

/-- A stream positioned at the TxnSignature field (or later) does not start
with the SigningPubKey header. -/
theorem headNe_sig_spk (o : Option Bytes) (r : Bytes) :
    (encOptVL hTxnSignature o ++ ((hAccount : Nat) :: r)).head? ≠
      some hSigningPubKey := by
  cases o <;> simp [encOptVL, hTxnSignature, hAccount, hSigningPubKey]

/-- A stream positioned at the Account field does not start with the
TxnSignature header. -/
theorem headNe_acct_sig (r : Bytes) :
    ((hAccount : Nat) :: r).head? ≠ some hTxnSignature := by
  simp [hAccount, hTxnSignature]

/-- A stream positioned at the Amount field does not start with the
LastLedgerSequence header. -/
theorem headNe_amt_lls (r : Bytes) :
    ((hAmount : Nat) :: r).head? ≠ some hLastLedgerSequence := by
  simp [hAmount, hLastLedgerSequence]

/-- A stream positioned at the SigningPubKey field (or later) does not start
with the SendMax header. -/
theorem headNe_pay_sendmax (o o' : Option Bytes) (r : Bytes) :
    (encOptVL hSigningPubKey o ++ (encOptVL hTxnSignature o' ++
      ((hAccount : Nat) :: r))).head? ≠ some hSendMax := by
  cases o <;> cases o' <;>
    simp [encOptVL, hSigningPubKey, hTxnSignature, hAccount, hSendMax]

set_option maxHeartbeats 400000 in
/-- Decoding the encoded body of a Payment recovers it, given fuel at least
the paths bound. -/
theorem decPayment_enc (p : Payment) (fuel : Nat)
    (hp : ∀ ps, p.paths = some ps → ps ≠ [] ∧ pathsBound ps ≤ fuel) :
    decPayment fuel (encPaymentBody p) = some (p, []) := by
  cases hps : p.paths with
  | none =>
    simp only [decPayment, encPaymentBody, hps, encOptPaths, List.append_nil,
      decOptNat_enc, decNatF_enc, decAmountF_enc, decOptAmount_enc,
      decOptVL_enc, decVLF_enc, decVLF_enc_nil, decOptPaths_nil,
      headNe_seq_flags, headNe_amt_lls, headNe_pay_sendmax, headNe_sig_spk,
      headNe_acct_sig, ne_eq, not_false_eq_true, Option.some_bind]
    rw [← hps]
  | some ps =>
    obtain ⟨hne, hf⟩ := hp ps hps
    simp only [decPayment, encPaymentBody, hps, encOptPaths,
      decOptNat_enc, decNatF_enc, decAmountF_enc, decOptAmount_enc,
      decOptVL_enc, decVLF_enc, decOptPaths, eq_self_iff_true, if_true,
      decPathList_enc_nil ps fuel hne hf,
      headNe_seq_flags, headNe_amt_lls, headNe_pay_sendmax, headNe_sig_spk,
      headNe_acct_sig, ne_eq, not_false_eq_true, Option.some_bind,
      Option.map_some']
    rw [← hps]

set_option maxHeartbeats 400000 in
/-- Decoding the encoded body of a TrustSet recovers it. -/
theorem decTrust_enc (t : TrustSet) :
    decTrust (encTrustBody t) = some (t, []) := by
  simp only [decTrust, encTrustBody,
    decOptNat_enc, decNatF_enc, decAmountF_enc, decOptVL_enc, decVLF_enc_nil,
    headNe_seq_flags, headNe_trust_qin, headNe_trust_qout, headNe_lim_lls,
    headNe_sig_spk, headNe_acct_sig, ne_eq, not_false_eq_true,
    Option.some_bind]

/-- The encoded path set fits inside the encoded payment body. -/
theorem encPathList_le_body (p : Payment) (ps : List (List Bytes))
    (hps : p.paths = some ps) :
    (encPathList ps).length ≤ (encPaymentBody p).length := by
  simp only [encPaymentBody, hps, encOptPaths, List.length_append,
    List.length_cons]
  omega

/-- Decoding a canonically encoded well-formed transaction recovers it. -/
theorem decodeTx_enc (tx : Tx) (hwf : tx.wellFormed = true) :
    decodeTx (encodeTx tx) = some tx := by
  cases tx with
  | payment p =>
    have hp : ∀ ps, p.paths = some ps →
        ps ≠ [] ∧ pathsBound ps ≤ (encPaymentBody p).length + 2 := by
      intro ps hps
      refine ⟨?_, ?_⟩
      · intro h
        subst h
        simp [Tx.wellFormed, hps] at hwf
      · calc pathsBound ps ≤ (encPathList ps).length := pathsBound_le_enc ps
          _ ≤ (encPaymentBody p).length := encPathList_le_body p ps hps
          _ ≤ (encPaymentBody p).length + 2 := by omega
    simp [decodeTx, encodeTx, hTransactionType,
      decPayment_enc p ((encPaymentBody p).length + 2) hp]
  | trustSet t =>
    simp [decodeTx, encodeTx, hTransactionType, decTrust_enc t]

/-! ## Helper lemmas for the Signer model -/

/-- `Nat.toDigitsCore` never empties a non-empty accumulator. -/
theorem toDigitsCore_ne_nil (b fuel n : Nat) (ds : List Char) (hds : ds ≠ []) :
    Nat.toDigitsCore b fuel n ds ≠ [] := by
  induction fuel generalizing n ds with
  | zero => simpa [Nat.toDigitsCore] using hds
  | succ fuel ih =>
    simp only [Nat.toDigitsCore]
    split
    · simp
    · exact ih _ _ (by simp)

/-- The digit list of a natural number is never empty. -/
theorem toDigits_ne_nil (b n : Nat) : Nat.toDigits b n ≠ [] := by
  simp only [Nat.toDigits, Nat.toDigitsCore]
  split
  · simp
  · exact toDigitsCore_ne_nil b n (n / b) _ (by simp)

/-- The decimal rendering of a natural number is never the empty string. -/
theorem natRepr_ne_empty (n : Nat) : Nat.repr n ≠ "" := by
  simp only [Nat.repr]
  intro h
  have hd : (Nat.toDigits 10 n) = [] := by
    have := congrArg String.data h
    simpa [List.asString] using this
  exact toDigits_ne_nil 10 n hd

/-- The cli's string form of the fee flag is never empty, so `sign` always
assigns the fee. -/
theorem feeString_ne_empty (g : GlobalConfig) : feeString g ≠ "" :=
  natRepr_ne_empty _

/-- Reading back the base record after replacing it. -/
theorem getBase_setBase (tx : Tx) (b : TransactionBase) :
    (tx.setBase b).getBase = b := by
  cases tx <;> rfl

/-- The base record of the pre-signing transaction. -/
theorem getBase_preSignTx (g : GlobalConfig) (root : Bytes) (index : Nat)
    (tx : Tx) :
    (preSignTx g root index tx).getBase = preSignBase g root index tx.getBase := by
  simp [preSignTx, getBase_setBase]

/-- The fee assigned by the pre-signing step is always the cli fee value. -/
theorem preSignBase_fee (g : GlobalConfig) (root : Bytes) (index : Nat)
    (b : TransactionBase) : (preSignBase g root index b).fee = feeValue g := by
  simp [preSignBase, feeString_ne_empty g]

/-- The base record of the signed transaction. -/
theorem getBase_signedTxF (g : GlobalConfig) (root : Bytes) (index : Nat)
    (tx : Tx) :
    (signedTxF g root index tx).getBase =
      { preSignBase g root index tx.getBase with
        txnSignature := some (specSign (accountPriv root index)
          (signingPayload (preSignTx g root index tx))) } := by
  simp [signedTxF, Tx.setSignature, getBase_setBase, getBase_preSignTx]

/-! ## Sample values used by the witnesses -/

/-- A sample global configuration: binary output, no submission. -/
def gBin : GlobalConfig :=
  { seed := some "sEdV"
    feeSpecified := none
    sequence := 4
    lastledger := 0
    submitFlag := false
    binary := true
    json := false
    signingFault := false
    submitOutcome := Sum.inl ("tesSUCCESS", "The transaction was applied.") }

/-- A sample signed payment with paths, used by the round-trip witness. -/
def sampleTx : Tx :=
  Tx.payment
    { base :=
        { account := [1, 2, 3]
          sequence := 5
          fee := 10
          flags := some 131072
          lastLedgerSequence := some 99
          signingPubKey := some [2, 7]
          txnSignature := some [9, 9] }
      destination := [4, 5]
      amount := Amount.issued 12 [85, 83, 68] [6]
      paths := some [[[7, 8]], [[9]]]
      sendMax := some (Amount.native 3) }

/-! ## The claims -/

/-- C1: for every selection of named boolean options, the Flags field is
exactly the bitwise OR of the bits of the selected options and nothing
else: each Payment and TrustSet option contributes exactly its own single
bit, `{nodirect, partial}` together give exactly
`NoDirectRipple ||| PartialPayment`, and no selected options give zero. -/
theorem c1_flag_composition :
    (∀ a b c : Bool, paymentFlags a b c =
      (if a then TxNoDirectRipple else 0) |||
      (if b then TxPartialPayment else 0) |||
      (if c then TxLimitQuality else 0)) ∧
    paymentFlags true true false = (TxNoDirectRipple ||| TxPartialPayment) ∧
    paymentFlags false false false = 0 ∧
    paymentFlags true false false = TxNoDirectRipple ∧
    paymentFlags false true false = TxPartialPayment ∧
    paymentFlags false false true = TxLimitQuality ∧
    (∀ a b c d e : Bool, trustFlags a b c d e =
      (if a then TxSetAuth else 0) ||| (if b then TxSetNoRipple else 0) |||
      (if c then TxClearNoRipple else 0) ||| (if d then TxSetFreeze else 0) |||
      (if e then TxClearFreeze else 0)) ∧
    trustFlags false false false false false = 0 ∧
    trustFlags true false false false false = TxSetAuth ∧
    trustFlags false true false false false = TxSetNoRipple ∧
    trustFlags false false true false false = TxClearNoRipple ∧
    trustFlags false false false true false = TxSetFreeze ∧
    trustFlags false false false false true = TxClearFreeze ∧
    TxNoDirectRipple = 2 ^ 16 ∧ TxPartialPayment = 2 ^ 17 ∧
    TxLimitQuality = 2 ^ 18 ∧ TxSetAuth = 2 ^ 16 ∧ TxSetNoRipple = 2 ^ 17 ∧
    TxClearNoRipple = 2 ^ 18 ∧ TxSetFreeze = 2 ^ 20 ∧ TxClearFreeze = 2 ^ 21 := by
  decide

/-- C3: key derivation is deterministic — identical (seed, index,
algorithm) inputs always produce the identical (private key, public key,
AccountID) triple. -/
theorem c3_derivation_deterministic (s1 s2 : Bytes) (i1 i2 : Nat)
    (a1 a2 : Algorithm) (hs : s1 = s2) (hi : i1 = i2) (ha : a1 = a2) :
    deriveKey s1 i1 a1 = deriveKey s2 i2 a2 := by
  subst hs
  subst hi
  subst ha
  rfl

/-- Witness for C3 at a concrete seed, index and algorithm. -/
theorem c3_derivation_deterministic_witness :
    ([1, 2] : Bytes) = [1, 2] ∧ (0 : Nat) = 0 ∧
    Algorithm.ecdsa = Algorithm.ecdsa ∧
    deriveKey [1, 2] 0 Algorithm.ecdsa = deriveKey [1, 2] 0 Algorithm.ecdsa :=
  ⟨rfl, rfl, rfl,
    c3_derivation_deterministic [1, 2] [1, 2] 0 0 Algorithm.ecdsa
      Algorithm.ecdsa rfl rfl rfl⟩

/-- C4: the Signer sets AccountID from the key, the sequence, the fee, the
public-key field and an empty placeholder signature before the signing
payload is computed, and the signature field holds the resulting signature
bytes only after signing completes. -/
theorem c4_placeholder_then_signature (g : GlobalConfig) (root : Bytes)
    (index : Nat) (tx : Tx) :
    (preSignTx g root index tx).getBase.txnSignature = some [] ∧
    (preSignTx g root index tx).getBase.account =
      accountIdOf (accountPub (accountPriv root index)) ∧
    (preSignTx g root index tx).getBase.sequence = g.sequence ∧
    (preSignTx g root index tx).getBase.fee = feeValue g ∧
    (preSignTx g root index tx).getBase.signingPubKey =
      some (accountPub (accountPriv root index)) ∧
    signedTxF g root index tx =
      (preSignTx g root index tx).setSignature
        (specSign (accountPriv root index)
          (signingPayload (preSignTx g root index tx))) ∧
    (signedTxF g root index tx).getBase.txnSignature =
      some (specSign (accountPriv root index)
        (signingPayload (preSignTx g root index tx))) := by
  refine ⟨?_, ?_, ?_, ?_, ?_, rfl, ?_⟩
  · simp [getBase_preSignTx, preSignBase]
  · simp [getBase_preSignTx, preSignBase]
  · simp [getBase_preSignTx, preSignBase]
  · simp [getBase_preSignTx, preSignBase_fee]
  · simp [getBase_preSignTx, preSignBase]
  · simp [getBase_signedTxF]

/-- C7: the Signer always assigns the cli fee value — the fixed minimum
default 10 when the caller did not specify a fee, and the caller's value
when one was specified. -/
theorem c7_fee_default (g : GlobalConfig) (root : Bytes) (index : Nat)
    (tx : Tx) :
    (signedTxF g root index tx).getBase.fee = feeValue g ∧
    (g.feeSpecified = none → feeValue g = 10) ∧
    (∀ v, g.feeSpecified = some v → feeValue g = v) := by
  refine ⟨?_, ?_, ?_⟩
  · simp [getBase_signedTxF, preSignBase_fee]
  · intro h
    simp [feeValue, h]
  · intro v h
    simp [feeValue, h]

/-- Witness for C7: with no fee specified the fee is 10; with fee 7
specified the fee is 7. -/
theorem c7_fee_default_witness :
    (signedTxF gBin [3] 0 sampleTx).getBase.fee = 10 ∧
    (signedTxF { gBin with feeSpecified := some 7 } [3] 0
      sampleTx).getBase.fee = 7 := by
  constructor
  · have h := c7_fee_default gBin [3] 0 sampleTx
    rw [h.1, h.2.1 rfl]
  · have h := c7_fee_default { gBin with feeSpecified := some 7 } [3] 0 sampleTx
    rw [h.1, h.2.2 7 rfl]

/-- A sample payment configuration with an empty destination. -/
def pcfgNoDest : PaymentConfig :=
  { g := gBin
    dest := ""
    amount := "1"
    paths := ""
    sendmax := ""
    nodirect := false
    part := false
    limit := false }

/-- A sample payment configuration whose signing collaborator fails. -/
def pcfgFault : PaymentConfig :=
  { g := { gBin with signingFault := true }
    dest := "rDest"
    amount := "10"
    paths := ""
    sendmax := ""
    nodirect := true
    part := true
    limit := false }

/-- A sample trust configuration whose signing collaborator fails. -/
def tcfgFault : TrustConfig :=
  { g := { gBin with signingFault := true }
    amount := "5/USD/rIssuer"
    qualityOut := 3 / 2
    qualityIn := 0
    auth := false
    noripple := true
    clearNoripple := false
    freeze := false
    clearFreeze := false }

/-- A sample global configuration with submission enabled. -/
def gSub : GlobalConfig := { gBin with submitFlag := true }

/-- C2: decoding a canonical binary encoding through the alternate entry
path (`submit`) and routing it to the encoder re-encodes it to
byte-identical binary output. -/
theorem c2_binary_roundtrip (g : GlobalConfig) (tx : Tx)
    (hb : g.binary = true) (hj : g.json = false) (hs : g.submitFlag = false)
    (hwf : tx.wellFormed = true) :
    decodeTx (encodeTx tx) = some tx ∧
    submitCmd g (encodeTx tx) = ([Output.binaryOut (encodeTx tx)], none) := by
  refine ⟨decodeTx_enc tx hwf, ?_⟩
  simp [submitCmd, decodeTx_enc tx hwf, outputTxRun, hs, localOutputs, hb, hj]

/-- Witness for C2 at a concrete signed payment carrying paths. -/
theorem c2_binary_roundtrip_witness :
    gBin.binary = true ∧ gBin.json = false ∧ gBin.submitFlag = false ∧
    sampleTx.wellFormed = true ∧
    submitCmd gBin (encodeTx sampleTx) =
      ([Output.binaryOut (encodeTx sampleTx)], none) :=
  ⟨rfl, rfl, rfl, by decide,
    (c2_binary_roundtrip gBin sampleTx rfl rfl rfl (by decide)).2⟩

/-- C5: every TrustSet build scales the QualityIn/QualityOut ratios by
`10^9` into the wire integer; 1.5 encodes as 1500000000, 0 encodes as 0. -/
theorem c5_quality_scaling :
    (∀ cfg : TrustConfig,
      (buildTrust cfg).qualityIn = some (qualityWire cfg.qualityIn) ∧
      (buildTrust cfg).qualityOut = some (qualityWire cfg.qualityOut)) ∧
    qualityWire (3 / 2) = 1500000000 ∧
    qualityWire 0 = 0 ∧
    (∀ n : Nat, n < 4294967296 → qualityWire ((n : ℚ) / 1000000000) = n) := by
  refine ⟨fun cfg => ⟨rfl, rfl⟩, ?_, ?_, ?_⟩
  · have h : ((3 : ℚ) / 2) * 1000000000 = ((1500000000 : ℕ) : ℚ) := by
      norm_num
    rw [qualityWire, h, Int.floor_natCast]
    decide
  · simp [qualityWire]
  · intro n hn
    have h : ((n : ℚ) / 1000000000) * 1000000000 = ((n : ℕ) : ℚ) := by
      field_simp
    rw [qualityWire, h, Int.floor_natCast]
    simp [Nat.mod_eq_of_lt hn]

/-- Witness for C5's general scaling clause at a concrete ratio. -/
theorem c5_quality_scaling_witness :
    (7 : Nat) < 4294967296 ∧ qualityWire ((7 : ℚ) / 1000000000) = 7 :=
  ⟨by norm_num, c5_quality_scaling.2.2.2 7 (by norm_num)⟩

/-- C6: building a Payment with an empty destination or an empty amount
fails with MissingRequiredField and produces no output — the rejection
happens in the validation step, before any cryptographic work. -/
theorem c6_missing_required_field (cfg : PaymentConfig)
    (h : cfg.dest = "" ∨ cfg.amount = "") :
    paymentRun cfg = ([], some Err.missingRequiredField) := by
  rw [paymentRun, if_pos]
  rcases h with h | h
  · exact Or.inl h
  · exact Or.inr (Or.inl h)

/-- Witness for C6 at a concrete configuration with an empty destination. -/
theorem c6_missing_required_field_witness :
    (pcfgNoDest.dest = "" ∨ pcfgNoDest.amount = "") ∧
    paymentRun pcfgNoDest = ([], some Err.missingRequiredField) :=
  ⟨Or.inl rfl, c6_missing_required_field pcfgNoDest (Or.inl rfl)⟩

/-- C8: every error is terminal and a failed stage emits nothing — in
particular a signing failure in `payment` or `trust` yields no output at
all (no binary, no hash+hex, no structured output). -/
theorem c8_no_output_on_signing_failure (cfg : PaymentConfig)
    (tcfg : TrustConfig)
    (hd : cfg.dest ≠ "") (ha : cfg.amount ≠ "") (hs : cfg.g.seed ≠ none)
    (hf : cfg.g.signingFault = true)
    (ta : tcfg.amount ≠ "") (ts : tcfg.g.seed ≠ none)
    (tf : tcfg.g.signingFault = true) :
    paymentRun cfg = ([], some Err.signingError) ∧
    trustRun tcfg = ([], some Err.signingError) := by
  constructor
  · simp [paymentRun, signRun, hd, ha, hs, hf]
  · simp [trustRun, signRun, ta, ts, tf]

/-- Witness for C8 at concrete configurations with a failing signer. -/
theorem c8_no_output_on_signing_failure_witness :
    pcfgFault.dest ≠ "" ∧ pcfgFault.amount ≠ "" ∧ pcfgFault.g.seed ≠ none ∧
    pcfgFault.g.signingFault = true ∧ tcfgFault.amount ≠ "" ∧
    tcfgFault.g.seed ≠ none ∧ tcfgFault.g.signingFault = true ∧
    paymentRun pcfgFault = ([], some Err.signingError) ∧
    trustRun tcfgFault = ([], some Err.signingError) :=
  ⟨by decide, by decide, by decide, rfl, by decide, by decide, rfl,
    c8_no_output_on_signing_failure pcfgFault tcfgFault (by decide)
      (by decide) (by decide) rfl (by decide) (by decide) rfl⟩

/-- C9: a delivered network submission result is surfaced verbatim —
including provisional-failure codes, which are not escalated into local
errors — while a transport error fails the invocation carrying that
error's message; `outputTx` hands off to this behaviour when submission
is requested. -/
theorem c9_submission_passthrough (g : GlobalConfig) (tx : Tx)
    (hsub : g.submitFlag = true) :
    submitTxRun (Sum.inl ("tesSUCCESS", "The transaction was applied.")) =
      ([Output.submitted "tesSUCCESS" "The transaction was applied."], none) ∧
    (∀ code msg, submitTxRun (Sum.inl (code, msg)) =
      ([Output.submitted code msg], none)) ∧
    (∀ e, submitTxRun (Sum.inr e) = ([], some (Err.transportError e))) ∧
    outputTxRun g tx =
      (localOutputs g tx ++ (submitTxRun g.submitOutcome).1,
       (submitTxRun g.submitOutcome).2) := by
  refine ⟨rfl, fun code msg => rfl, fun e => rfl, ?_⟩
  simp [outputTxRun, hsub]

/-- Witness for C9 at a concrete submitting configuration. -/
theorem c9_submission_passthrough_witness :
    gSub.submitFlag = true ∧
    submitTxRun (Sum.inl ("tesSUCCESS", "The transaction was applied.")) =
      ([Output.submitted "tesSUCCESS" "The transaction was applied."], none) :=
  ⟨rfl, (c9_submission_passthrough gSub sampleTx rfl).1⟩

/-- C10: `payment` and `trust` sign with the account key derived at index
0 regardless of the caller-supplied sequence: the sequence option sets
only the transaction's Sequence field, never the key-derivation index. -/
theorem c10_key_index_zero (cfg : PaymentConfig) (tcfg : TrustConfig)
    (s : Nat) :
    (paymentSigned cfg).getBase.account =
      accountIdOf (accountPub (accountPriv (rootKeyOf cfg.g) 0)) ∧
    (paymentSigned cfg).getBase.signingPubKey =
      some (accountPub (accountPriv (rootKeyOf cfg.g) 0)) ∧
    (paymentSigned cfg).getBase.sequence = cfg.g.sequence ∧
    (paymentSigned { cfg with g := { cfg.g with sequence := s } }).getBase.account =
      (paymentSigned cfg).getBase.account ∧
    (paymentSigned { cfg with g := { cfg.g with sequence := s } }).getBase.sequence = s ∧
    (trustSigned tcfg).getBase.account =
      accountIdOf (accountPub (accountPriv (rootKeyOf tcfg.g) 0)) ∧
    (trustSigned tcfg).getBase.signingPubKey =
      some (accountPub (accountPriv (rootKeyOf tcfg.g) 0)) ∧
    (trustSigned tcfg).getBase.sequence = tcfg.g.sequence := by
  refine ⟨?_, ?_, ?_, ?_, ?_, ?_, ?_, ?_⟩ <;>
    simp [paymentSigned, trustSigned, getBase_signedTxF, preSignBase,
      rootKeyOf]
